import Mathlib

/-!
Verification of the `justpath` row-derivation and filtering pipeline
(`src/justpath/show.py`) against its natural-language specification.

The operating-system facilities the program consults are modelled as an
explicit environment `FS`:

* `realpath`   — `os.path.realpath`, resolving a path to its canonical
  absolute form (symlinks resolved, trailing separators stripped, …);
* `lower`     — Python's `str.lower`;
* `pathExists` — `os.path.exists`;
* `isDir`     — `os.path.isdir`;
* `mkPath`    — the composite `str(pathlib.Path(·))`, i.e. the string
  normalisation performed by constructing a `Path` object and reading it
  back as a string;
* `pathsep`   — `os.pathsep`.

All program functions are translated directly from the source and take the
environment as an explicit argument, so that theorems quantify over every
possible filesystem state and concrete environments serve as test inputs.
-/

structure FS where
  realpath : String → String
  lower : String → String
  pathExists : String → Bool
  isDir : String → Bool
  mkPath : String → String
  pathsep : Char

/-- The two per-row failure kinds of `Row.error`: `FileNotFoundError` and
`NotADirectoryError`. -/
inductive PathError where
  | fileNotFound
  | notADirectory
deriving DecidableEq, Repr

/-- `Row` dataclass: original position `i`, stored path (a `pathlib.Path`,
modelled by its string form), and the duplicate count. -/
structure Row where
  i : Nat
  path : String
  count : Nat
deriving DecidableEq, Repr

/-- `Row.error`: `FileNotFoundError` if the path does not exist, else
`NotADirectoryError` if it is not a directory, else `None`. -/
def Row.error (fs : FS) (r : Row) : Option PathError :=
  if ¬ fs.pathExists r.path then some PathError.fileNotFound
  else if ¬ fs.isDir r.path then some PathError.notADirectory
  else none

/-- `Row.has_error`. -/
def Row.has_error (fs : FS) (r : Row) : Bool :=
  (r.error fs).isSome

/-- `collections.Counter` lookup: the multiplicity of `x` in `xs`
(`Counter(xs)[x]`, which is `0` when `x` does not occur). -/
def counterGet (xs : List String) (x : String) : Nat :=
  (xs.filter (fun y => y = x)).length

/-- `make_rows`: one `Row` per path, indexed by `enumerate` (0-based), the
path stored through `Path(·)`, the count looked up in a `Counter` built over
the `realpath`s of the whole input list. -/
def make_rows (fs : FS) (paths : List String) : List Row :=
  paths.enum.map (fun ip =>
    { i := ip.1, path := fs.mkPath ip.2,
      count := counterGet (paths.map fs.realpath) (fs.realpath ip.2) })

/-- `PathVar` is a dict from 1-based position to `Path`; modelled as an
association list in insertion order. -/
def PathVarT : Type := List (Nat × String)

/-- `to_rows`: build rows from the values of the `PathVar` dict. -/
def to_rows (fs : FS) (path_var : List (Nat × String)) : List Row :=
  make_rows fs (path_var.map (fun kv => kv.2))

/-- Character-list core of Python's `str.split(sep)` for a one-character
separator: split at every occurrence; the empty input yields one empty
field (`"".split(":") == [""]`). -/
def splitOnChar (sep : Char) : List Char → List (List Char)
  | [] => [[]]
  | c :: cs =>
    match splitOnChar sep cs with
    | [] => [[c]]
    | r :: rs => if c = sep then [] :: r :: rs else (c :: r) :: rs

/-- Python's `s.split(sep)` for the one-character separator `os.pathsep`. -/
def pySplit (sep : Char) (s : String) : List String :=
  (splitOnChar sep s.data).map (fun l => String.mk l)

/-- `PathVar.populate`: read the PATH environment variable (a `KeyError`
when absent — modelled as `Except.error`), split on `os.pathsep`, and key
the entries 1-based. -/
def PathVar.populate (fs : FS) (envPATH : Option String) :
    Except Unit (List (Nat × String)) :=
  match envPATH with
  | none => Except.error ()
  | some s =>
      Except.ok ((pySplit fs.pathsep s).enum.map (fun ip => (ip.1 + 1, fs.mkPath ip.2)))

/-- `PathVar.max_digits`: number of digits of the largest key, `0` for an
empty dict. -/
def max_digits (path_var : List (Nat × String)) : Nat :=
  if path_var = [] then 0
  else (toString ((path_var.map (fun kv => kv.1)).foldl max 0)).length

/-- Loop of `unseen_before`, with the `seen` set made explicit. -/
def unseenGo (seen : List String) : List String → List String
  | [] => []
  | x :: xs => if x ∈ seen then unseenGo seen xs else x :: unseenGo (x :: seen) xs

/-- `unseen_before`: keep only the first occurrence of each element. -/
def unseen_before (xs : List String) : List String :=
  unseenGo [] xs

/-- `no_duplicates`: dedupe the rows' canonical (`realpath` + `lower`) path
strings and rebuild the rows from the surviving strings with `make_rows`. -/
def no_duplicates (fs : FS) (rows : List Row) : List Row :=
  make_rows fs (unseen_before (rows.map (fun r => fs.lower (fs.realpath r.path))))

/-- Pipeline stage 1, `sorted(rows, key=lambda r: realpath(r.path))`: a
stable sort by canonical path string. -/
def sort_stage (fs : FS) (rows : List Row) : List Row :=
  rows.mergeSort (fun a b => decide (fs.realpath a.path ≤ fs.realpath b.path))

/-- Pipeline stage 2: keep rows with `count > 1`. -/
def duplicates_stage (rows : List Row) : List Row :=
  rows.filter (fun r => r.count > 1)

/-- Pipeline stage 3: `no_duplicates`. -/
def purge_duplicates_stage (fs : FS) (rows : List Row) : List Row :=
  no_duplicates fs rows

/-- Pipeline stage 4: keep rows with an error. -/
def invalid_stage (fs : FS) (rows : List Row) : List Row :=
  rows.filter (fun r => r.has_error fs)

/-- Pipeline stage 5: keep rows without an error. -/
def purge_invalid_stage (fs : FS) (rows : List Row) : List Row :=
  rows.filter (fun r => ¬ r.has_error fs)

/-- Python's substring test `needle in hay` on strings. -/
def strContains (hay needle : String) : Bool :=
  decide (needle.data <:+: hay.data)

/-- Pipeline stage 6: keep rows whose lowered canonical path contains the
lowered `includes` string. -/
def includes_stage (fs : FS) (includes : String) (rows : List Row) : List Row :=
  rows.filter (fun r => strContains (fs.lower (fs.realpath r.path)) (fs.lower includes))

/-- Pipeline stage 7: keep rows whose lowered canonical path does not
contain the lowered `excludes` string. -/
def excludes_stage (fs : FS) (excludes : String) (rows : List Row) : List Row :=
  rows.filter (fun r => ¬ strContains (fs.lower (fs.realpath r.path)) (fs.lower excludes))

/-- `modify_rows`: the seven optional stages, applied in the source's fixed
order; a string option counts as requested when non-empty (Python
truthiness). -/
def modify_rows (fs : FS) (rows : List Row)
    (sort duplicates purge_duplicates invalid purge_invalid : Bool)
    (includes excludes : String) : List Row :=
  let rows := if sort then sort_stage fs rows else rows
  let rows := if duplicates then duplicates_stage rows else rows
  let rows := if purge_duplicates then purge_duplicates_stage fs rows else rows
  let rows := if invalid then invalid_stage fs rows else rows
  let rows := if purge_invalid then purge_invalid_stage fs rows else rows
  let rows := if includes ≠ "" then includes_stage fs includes rows else rows
  let rows := if excludes ≠ "" then excludes_stage fs excludes rows else rows
  rows

/-- `colorama.Fore.RED`. -/
def ForeRED : String := "\x1b[31m"

/-- `colorama.Fore.YELLOW`. -/
def ForeYELLOW : String := "\x1b[33m"

/-- `colorama.Fore.GREEN`. -/
def ForeGREEN : String := "\x1b[32m"

/-- `get_color`: red for invalid rows, yellow for duplicated rows, green
otherwise. -/
def get_color (fs : FS) (row : Row) : String :=
  if row.has_error fs then ForeRED
  else if row.count > 1 then ForeYELLOW
  else ForeGREEN

/-- The source's comparison `row.error == NotADirectoryError()` compares the
error *class* held in `row.error` (or `None`) with a freshly constructed
`NotADirectoryError` *instance*; in Python a class never compares equal to an
instance, so this test is `False` for every row. -/
def errorEqNotADirectoryInstance (_e : Option PathError) : Bool :=
  false

/-- `get_postfix`: parenthesized annotation built from the row's error kind
and its duplicate count. -/
def get_postfix (fs : FS) (row : Row) : String :=
  let errItems : List String :=
    if row.error fs = some PathError.fileNotFound then ["directory does not exist"]
    else if errorEqNotADirectoryInstance (row.error fs) then ["not a directory"]
    else []
  let items := errItems ++ (if row.count > 1 then ["duplicates: " ++ toString row.count] else [])
  if items ≠ [] then "(" ++ String.intercalate ", " items ++ ")" else ""

/-- Python's `str.rjust`: pad on the left with spaces up to width `n`. -/
def rjust (s : String) (n : Nat) : String :=
  if n ≤ s.length then s else String.mk (List.replicate (n - s.length) ' ') ++ s

/-- `print_row`: the line printed for one row in full text mode;
`print(a, b, c)` joins its arguments with single spaces. -/
def print_row (fs : FS) (row : Row) (color : Bool) (n : Nat) : String :=
  let modifier := if color then get_color fs row else ""
  let pfx := get_postfix fs row
  modifier ++ rjust (toString row.i) n ++ " " ++ row.path ++ " " ++ pfx

/-- The values of the stats dict `dict(total=t, invalid=e, duplicates=d)`
printed by `show_stats`. -/
structure Stats where
  total : Nat
  invalid : Nat
  duplicates : Nat
deriving DecidableEq, Repr

/-- `show_stats`: total number of entries, number of rows with an error,
number of rows with `count > 1`, all computed from the freshly populated,
unfiltered `PathVar`. JSON and human-readable output render the same three
numbers (serialization is an excluded collaborator). -/
def show_stats (fs : FS) (path_var : List (Nat × String)) : Stats :=
  let t := path_var.length
  let rows := to_rows fs path_var
  let e := (rows.filter (fun row => row.has_error fs)).length
  let d := (rows.filter (fun row => row.count > 1)).length
  { total := t, invalid := e, duplicates := d }

/-- What the `show` command prints, by branch: the raw PATH text, the stats
summary, the joined single string, the JSON array of path strings, or one
text line per row. -/
inductive Output where
  | raw (s : String)
  | stats (st : Stats)
  | str (s : String)
  | jsonPaths (paths : List String)
  | text (lines : List String)
deriving DecidableEq, Repr

/-- The `show` command (`show` is a Lean keyword, hence the name
`show_main`): `raw` short-circuits to the raw PATH text, `count` to the
stats; otherwise rows are built, `correct` forces both purge flags, the
pipeline runs, and one of the three output formats renders the result. A
missing PATH variable is a `KeyError` (`Except.error`) in every branch. -/
def show_main (fs : FS) (envPATH : Option String)
    (raw count sort invalid purge_invalid duplicates purge_duplicates correct : Bool)
    (includes excludes : String) (bare color string json : Bool) :
    Except Unit Output :=
  if raw then
    match envPATH with
    | none => Except.error ()
    | some s => Except.ok (Output.raw s)
  else if count then
    (PathVar.populate fs envPATH).map (fun pv => Output.stats (show_stats fs pv))
  else
    (PathVar.populate fs envPATH).map (fun path_var =>
      let rows := to_rows fs path_var
      let purge_duplicates := if correct then true else purge_duplicates
      let purge_invalid := if correct then true else purge_invalid
      let rows := modify_rows fs rows sort duplicates purge_duplicates invalid
        purge_invalid includes excludes
      let paths := rows.map (fun row => row.path)
      if string then Output.str (String.intercalate (String.mk [fs.pathsep]) paths)
      else if json then Output.jsonPaths paths
      else Output.text (rows.map (fun row =>
        if bare then (if color then get_color fs row else "") ++ row.path
        else print_row fs row color (max_digits path_var))))

/-- Modelled from the spec: one pipeline stage, applied only when
requested, identity otherwise ("stages not requested are identity"). -/
def applyIf (b : Prop) [Decidable b] (f : List Row → List Row) (rows : List Row) : List Row :=
  if b then f rows else rows

/-- Modelled from the spec: the seven stages composed left to right in the
fixed documented order sort, duplicates-only, purge-duplicates,
invalid-only, purge-invalid, includes-filter, excludes-filter. -/
def pipeline_spec (fs : FS) (sort duplicates purge_duplicates invalid purge_invalid : Bool)
    (includes excludes : String) (rows : List Row) : List Row :=
  applyIf (excludes ≠ "") (excludes_stage fs excludes)
    (applyIf (includes ≠ "") (includes_stage fs includes)
      (applyIf purge_invalid (purge_invalid_stage fs)
        (applyIf invalid (invalid_stage fs)
          (applyIf purge_duplicates (purge_duplicates_stage fs)
            (applyIf duplicates duplicates_stage
              (applyIf sort (sort_stage fs) rows))))))

/-- ASCII lowering, agreeing with Python's `str.lower` on the ASCII strings
used in the concrete test environments below. -/
def asciiLower (s : String) : String :=
  String.mk (s.data.map Char.toLower)

/-- Concrete environment: every path exists and is a directory, `realpath`,
`lower` and `Path` normalisation are the identity (realizable for distinct
plain lower-case directory paths). -/
def fsId : FS :=
  { realpath := id, lower := id, pathExists := fun _ => true, isDir := fun _ => true,
    mkPath := id, pathsep := ':' }

/-- Concrete environment for a case-sensitive filesystem: `realpath`
preserves case (no symlinks), paths exist as directories. -/
def fsCase : FS :=
  { realpath := id, lower := asciiLower, pathExists := fun _ => true, isDir := fun _ => true,
    mkPath := id, pathsep := ':' }

/-- Concrete environment for the spec's scenario: `/bin` exists and is a
directory, `/nonexistent` does not exist, no symlinks. -/
def fsBin : FS :=
  { realpath := id, lower := asciiLower, pathExists := fun p => p == "/bin",
    isDir := fun p => p == "/bin", mkPath := id, pathsep := ':' }

/-- Concrete environment in which `/etc/passwd` exists but is a regular
file, not a directory. -/
def fsFile : FS :=
  { realpath := id, lower := asciiLower, pathExists := fun p => p == "/etc/passwd",
    isDir := fun _ => false, mkPath := id, pathsep := ':' }

/-- Concrete environment with a symlink: `/A` is a real directory while
`/a` is a symbolic link to `/C`, so `realpath` maps `/a` to `/C` and is the
identity elsewhere (realizable on a case-sensitive filesystem). -/
def fsSym : FS :=
  { realpath := fun p => if p = "/a" then "/C" else p, lower := asciiLower,
    pathExists := fun _ => true, isDir := fun _ => true, mkPath := id, pathsep := ':' }

/-- Concrete environment in which `realpath` strips the trailing separator
of `/usr/bin/` (as the real `os.path.realpath` does). -/
def fsSlash : FS :=
  { realpath := fun p => if p = "/usr/bin/" then "/usr/bin" else p, lower := asciiLower,
    pathExists := fun _ => true, isDir := fun _ => true, mkPath := id, pathsep := ':' }

/-! ## Helper lemmas -/

theorem make_rows_length (fs : FS) (paths : List String) :
    (make_rows fs paths).length = paths.length := by
  simp [make_rows]

theorem make_rows_map_i (fs : FS) (paths : List String) :
    (make_rows fs paths).map Row.i = List.range paths.length := by
  unfold make_rows
  rw [List.map_map]
  exact List.enum_map_fst paths

theorem make_rows_map_path (fs : FS) (paths : List String) :
    (make_rows fs paths).map Row.path = paths.map fs.mkPath := by
  unfold make_rows
  rw [List.map_map]
  have h : (Row.path ∘ fun ip : Nat × String =>
      ({ i := ip.1, path := fs.mkPath ip.2,
         count := counterGet (paths.map fs.realpath) (fs.realpath ip.2) } : Row))
      = fs.mkPath ∘ Prod.snd := rfl
  rw [h, ← List.map_map, List.enum_map_snd]

theorem counterGet_map (f : String → String) (l : List String) (x : String) :
    counterGet (l.map f) (f x) = (l.filter (fun q => f q = f x)).length := by
  unfold counterGet
  rw [List.filter_map, List.length_map]
  rfl

theorem make_rows_map_count (fs : FS) (paths : List String) :
    (make_rows fs paths).map Row.count
      = paths.map (fun p => (paths.filter (fun q => fs.realpath q = fs.realpath p)).length) := by
  unfold make_rows
  rw [List.map_map]
  have h : (Row.count ∘ fun ip : Nat × String =>
      ({ i := ip.1, path := fs.mkPath ip.2,
         count := counterGet (paths.map fs.realpath) (fs.realpath ip.2) } : Row))
      = (fun p => counterGet (paths.map fs.realpath) (fs.realpath p)) ∘ Prod.snd := rfl
  rw [h, ← List.map_map, List.enum_map_snd]
  exact List.map_congr_left (fun p _ => counterGet_map fs.realpath paths p)

theorem unseenGo_sublist (xs : List String) : ∀ seen, (unseenGo seen xs).Sublist xs := by
  induction xs with
  | nil => intro seen; simp [unseenGo]
  | cons x xs ih =>
      intro seen
      rw [unseenGo]
      by_cases h : x ∈ seen
      · rw [if_pos h]
        exact (ih seen).cons x
      · rw [if_neg h]
        exact (ih (x :: seen)).cons₂ x

theorem mem_unseenGo (x : String) : ∀ (xs seen : List String),
    x ∈ unseenGo seen xs ↔ x ∈ xs ∧ x ∉ seen := by
  intro xs
  induction xs with
  | nil => intro seen; simp [unseenGo]
  | cons y ys ih =>
      intro seen
      rw [unseenGo]
      by_cases h : y ∈ seen
      · rw [if_pos h, ih seen]
        simp only [List.mem_cons]
        constructor
        · rintro ⟨hm, hn⟩
          exact ⟨Or.inr hm, hn⟩
        · rintro ⟨hm | hm, hn⟩
          · subst hm; exact absurd h hn
          · exact ⟨hm, hn⟩
      · rw [if_neg h]
        simp only [List.mem_cons, ih (y :: seen), List.mem_cons]
        by_cases hxy : x = y
        · subst hxy; simp [h]
        · simp [hxy]

theorem unseenGo_nodup : ∀ (xs seen : List String), (unseenGo seen xs).Nodup := by
  intro xs
  induction xs with
  | nil => intro seen; simp [unseenGo]
  | cons x xs ih =>
      intro seen
      rw [unseenGo]
      by_cases h : x ∈ seen
      · rw [if_pos h]; exact ih seen
      · rw [if_neg h]
        refine List.nodup_cons.mpr ⟨?_, ih (x :: seen)⟩
        intro hmem
        exact ((mem_unseenGo x xs (x :: seen)).mp hmem).2 (List.mem_cons_self x seen)

theorem unseenGo_eq_self : ∀ (xs : List String), xs.Nodup →
    ∀ seen, (∀ x ∈ xs, x ∉ seen) → unseenGo seen xs = xs := by
  intro xs
  induction xs with
  | nil => intro _ seen _; rfl
  | cons x xs ih =>
      intro hnd seen hdisj
      rw [unseenGo, if_neg (hdisj x (List.mem_cons_self x xs))]
      have hnd' := List.nodup_cons.mp hnd
      congr 1
      refine ih hnd'.2 (x :: seen) ?_
      intro y hy
      rw [List.mem_cons]
      rintro (rfl | hseen)
      · exact hnd'.1 hy
      · exact hdisj y (List.mem_cons_of_mem x hy) hseen

theorem unseen_before_eq_self (xs : List String) (hnd : xs.Nodup) : unseen_before xs = xs :=
  unseenGo_eq_self xs hnd [] (fun _ _ h => (List.not_mem_nil _ h).elim)

theorem unseen_before_nodup (xs : List String) : (unseen_before xs).Nodup :=
  unseenGo_nodup xs []

theorem unseenGo_congr : ∀ (xs seen seen' : List String),
    (∀ a, a ∈ seen ↔ a ∈ seen') → unseenGo seen xs = unseenGo seen' xs := by
  intro xs
  induction xs with
  | nil => intro seen seen' _; rfl
  | cons x xs ih =>
      intro seen seen' hiff
      rw [unseenGo, unseenGo]
      by_cases h : x ∈ seen
      · rw [if_pos h, if_pos ((hiff x).mp h)]
        exact ih seen seen' hiff
      · rw [if_neg h, if_neg (fun h' => h ((hiff x).mpr h'))]
        congr 1
        refine ih (x :: seen) (x :: seen') ?_
        intro a
        simp only [List.mem_cons]
        exact or_congr Iff.rfl (hiff a)

theorem unseenGo_shift (x : String) : ∀ (xs seen : List String),
    unseenGo (x :: seen) xs = unseenGo seen (xs.filter (fun y => y ≠ x)) := by
  intro xs
  induction xs with
  | nil => intro seen; rfl
  | cons y ys ih =>
      intro seen
      by_cases hyx : y = x
      · subst hyx
        rw [unseenGo, if_pos (List.mem_cons_self y seen)]
        have hf : (y :: ys).filter (fun z => z ≠ y) = ys.filter (fun z => z ≠ y) := by
          simp [List.filter_cons]
        rw [hf]
        exact ih seen
      · have hf : (y :: ys).filter (fun z => z ≠ x) = y :: ys.filter (fun z => z ≠ x) := by
          simp [List.filter_cons, hyx]
        rw [hf, unseenGo, unseenGo]
        by_cases h : y ∈ seen
        · rw [if_pos (List.mem_cons_of_mem x h), if_pos h]
          exact ih seen
        · have hny : y ∉ x :: seen := by
            rw [List.mem_cons]
            rintro (rfl | hc)
            · exact hyx rfl
            · exact h hc
          rw [if_neg hny, if_neg h]
          congr 1
          calc unseenGo (y :: x :: seen) ys
              = unseenGo (x :: y :: seen) ys := by
                refine unseenGo_congr ys _ _ ?_
                intro a
                simp only [List.mem_cons]
                tauto
            _ = unseenGo (y :: seen) (ys.filter (fun z => z ≠ x)) := ih (y :: seen)

theorem unseen_before_cons (x : String) (xs : List String) :
    unseen_before (x :: xs) = x :: unseen_before (xs.filter (fun y => y ≠ x)) := by
  unfold unseen_before
  rw [unseenGo, if_neg (List.not_mem_nil x)]
  rw [unseenGo_shift x xs []]

/-! ## Claim theorems -/

/-- C1 (amended): for every list of source path strings, `make_rows` returns
exactly one `Row` per input entry, in the same order (row `k` displays entry
`k`'s path), and each row's index field equals that entry's 0-based position
in the original source list (`enumerate` starts at 0; the 1-based `PathVar`
keys are discarded by `to_rows`). -/
theorem C1_make_rows_one_row_per_entry (fs : FS) (paths : List String) :
    (make_rows fs paths).length = paths.length ∧
    (make_rows fs paths).map Row.i = List.range paths.length ∧
    (make_rows fs paths).map Row.path = paths.map fs.mkPath :=
  ⟨make_rows_length fs paths, make_rows_map_i fs paths, make_rows_map_path fs paths⟩

/-- C1 counterexample: on the two-entry source list `/a`, `/b` the rows built
by `to_rows` carry the 0-based indices `[0, 1]`, not the claimed 1-based
positions `[1, 2]`. -/
theorem C1_counterexample :
    (to_rows fsId [(1, "/a"), (2, "/b")]).map Row.i = [0, 1] ∧
    ([0, 1] : List Nat) ≠ [1, 2] := by
  decide

/-- C2 (amended): each row's duplicate count equals the number of entries of
the full input list whose fully resolved (`realpath`) form equals that row's
resolved form; no case folding is applied at counting time. Entries that
differ only by a trailing separator are still counted together whenever
`realpath` strips it, as in the concrete environment `fsSlash`. -/
theorem C2_duplicate_count_by_realpath (fs : FS) (paths : List String) :
    (make_rows fs paths).map Row.count
      = paths.map (fun p => (paths.filter (fun q => fs.realpath q = fs.realpath p)).length) ∧
    (make_rows fsSlash ["/usr/bin", "/usr/bin/"]).map Row.count = [2, 2] :=
  ⟨make_rows_map_count fs paths, by decide⟩

/-- C2 counterexample: on a case-sensitive filesystem (`realpath` preserves
case, here the identity) the entries `/A` and `/a` each receive duplicate
count 1, whereas their case-folded canonical forms coincide, so the claim
demands a count of 2 for both. -/
theorem C2_counterexample :
    (make_rows fsCase ["/A", "/a"]).map Row.count = [1, 1] ∧
    (["/A", "/a"].filter (fun q =>
        fsCase.lower (fsCase.realpath q) = fsCase.lower (fsCase.realpath "/A"))).length = 2 ∧
    (1 : Nat) ≠ 2 := by
  decide

/-- C3 (amended): the purge-duplicates stage keeps exactly the first
occurrence (in current order) of each group of equal canonical
(`realpath` + `lower`) path strings — `unseen_before` keeps a list's head and
drops its later occurrences, and its output is an order-preserving,
duplicate-free selection from the canonical strings — but the surviving rows
are rebuilt by `make_rows` from those canonical strings: survivor `k` gets
index `k` (its original index is lost), the canonical string as its displayed
path, and a duplicate count recomputed over the deduplicated list. -/
theorem C3_purge_duplicates_rebuilds (fs : FS) (rows : List Row) (x : String)
    (xs : List String) :
    unseen_before (x :: xs) = x :: unseen_before (xs.filter (fun y => y ≠ x)) ∧
    (unseen_before (rows.map (fun r => fs.lower (fs.realpath r.path)))).Sublist
        (rows.map (fun r => fs.lower (fs.realpath r.path))) ∧
    (unseen_before (rows.map (fun r => fs.lower (fs.realpath r.path)))).Nodup ∧
    (no_duplicates fs rows).map Row.i
      = List.range (unseen_before (rows.map (fun r => fs.lower (fs.realpath r.path)))).length ∧
    (no_duplicates fs rows).map Row.path
      = (unseen_before (rows.map (fun r => fs.lower (fs.realpath r.path)))).map fs.mkPath :=
  ⟨unseen_before_cons x xs,
   unseenGo_sublist _ [],
   unseenGo_nodup _ [],
   make_rows_map_i fs _,
   make_rows_map_path fs _⟩

/-- C3 counterexample: on the spec's own scenario `[/bin, /bin, /nonexistent]`
the two surviving rows carry indices `[0, 1]` — neither the claimed original
positions (1 and 3) nor the original 0-based ones (0 and 2) — and counts
`[1, 1]` instead of the upfront duplicate counts `[2, 1]`. -/
theorem C3_counterexample :
    no_duplicates fsBin (make_rows fsBin ["/bin", "/bin", "/nonexistent"])
      = [{ i := 0, path := "/bin", count := 1 }, { i := 1, path := "/nonexistent", count := 1 }] ∧
    (no_duplicates fsBin (make_rows fsBin ["/bin", "/bin", "/nonexistent"])).map Row.i
      ≠ [1, 3] ∧
    (no_duplicates fsBin (make_rows fsBin ["/bin", "/bin", "/nonexistent"])).map Row.count
      ≠ [2, 1] := by
  decide

/-- C4 (amended): on the scenario source `[/bin, /bin, /nonexistent]` the
stats are `total = 3`, `invalid = 1`, `duplicates = 2` (both `/bin` rows have
`count > 1`, and `show_stats` counts rows, not groups); and the `count`
branch of `show` computes the stats from the freshly populated, unfiltered
`PathVar`, ignoring every filtering flag. -/
theorem C4_stats_values (fs : FS) (envPATH : Option String)
    (sort invalid purge_invalid duplicates purge_duplicates correct : Bool)
    (includes excludes : String) (bare color string json : Bool) :
    show_stats fsBin [(1, "/bin"), (2, "/bin"), (3, "/nonexistent")]
      = { total := 3, invalid := 1, duplicates := 2 } ∧
    show_main fs envPATH false true sort invalid purge_invalid duplicates purge_duplicates
        correct includes excludes bare color string json
      = (PathVar.populate fs envPATH).map (fun pv => Output.stats (show_stats fs pv)) :=
  ⟨by decide, rfl⟩

/-- C4 counterexample: the stats object on the scenario input has
`duplicates = 2`, not the claimed `duplicates = 1`. -/
theorem C4_counterexample :
    show_stats fsBin [(1, "/bin"), (2, "/bin"), (3, "/nonexistent")]
      = { total := 3, invalid := 1, duplicates := 2 } ∧
    ({ total := 3, invalid := 1, duplicates := 2 } : Stats)
      ≠ { total := 3, invalid := 1, duplicates := 1 } := by
  decide

/-- C5: for every source variable state and every setting of the remaining
pipeline and format options (and any setting of the two purge flags), running
`show` with `correct` produces exactly the same output as running it with
`purge_duplicates` and `purge_invalid` both enabled instead. -/
theorem C5_correct_flag_equivalence (fs : FS) (envPATH : Option String)
    (raw count sort invalid purge_invalid duplicates purge_duplicates : Bool)
    (includes excludes : String) (bare color string json : Bool) :
    show_main fs envPATH raw count sort invalid purge_invalid duplicates purge_duplicates true
        includes excludes bare color string json
      = show_main fs envPATH raw count sort invalid true duplicates true false
        includes excludes bare color string json :=
  rfl

/-- C6: `modify_rows` is the composition, left to right, of the seven stages
in the fixed order sort, duplicates-only, purge-duplicates, invalid-only,
purge-invalid, includes-filter, excludes-filter, every stage not requested
acting as the identity; with no stage requested the output equals the
input. -/
theorem C6_pipeline_fixed_order (fs : FS) (rows : List Row)
    (sort duplicates purge_duplicates invalid purge_invalid : Bool)
    (includes excludes : String) :
    modify_rows fs rows sort duplicates purge_duplicates invalid purge_invalid
        includes excludes
      = pipeline_spec fs sort duplicates purge_duplicates invalid purge_invalid
        includes excludes rows ∧
    modify_rows fs rows false false false false false "" "" = rows :=
  ⟨rfl, rfl⟩

/-- C7: the claim is the source's intent, but the code's second branch
compares the error class with a `NotADirectoryError()` *instance*, which is
never equal to it; so a row whose path exists but is not a directory
(validity `NotADirectory`) gets an empty annotation instead of one containing
"not a directory". -/
theorem C7_not_a_directory_never_annotated :
    Row.error fsFile { i := 0, path := "/etc/passwd", count := 1 }
      = some PathError.notADirectory ∧
    get_postfix fsFile { i := 0, path := "/etc/passwd", count := 1 } = "" := by
  decide

/-- C8 (amended): an absent source variable is fatal before any row
processing, identically in the `show`, `raw` and `count` paths (the PATH
lookup raises); but an *empty* source variable is not fatal: splitting the
empty string yields one empty entry and the command produces ordinary row
output. -/
theorem C8_missing_path_fatal (fs : FS)
    (raw count sort invalid purge_invalid duplicates purge_duplicates correct : Bool)
    (includes excludes : String) (bare color string json : Bool) :
    show_main fs none raw count sort invalid purge_invalid duplicates purge_duplicates
        correct includes excludes bare color string json = Except.error () ∧
    PathVar.populate fs none = Except.error () := by
  constructor
  · cases raw
    · cases count
      · rfl
      · rfl
    · rfl
  · rfl

/-- C8 counterexample: with the source variable present but empty, `populate`
succeeds with the single entry `""` keyed 1, and `show` produces a normal
one-line text output rather than terminating fatally. -/
theorem C8_counterexample :
    PathVar.populate fsId (some "") = Except.ok [(1, "")] ∧
    show_main fsId (some "") false false false false false false false false "" ""
        false true false false
      = Except.ok (Output.text ["\x1b[32m0  "]) ∧
    Except.ok (Output.text ["\x1b[32m0  "]) ≠ (Except.error () : Except Unit Output) :=
  ⟨rfl, rfl, fun h => Except.noConfusion h⟩

/-- C9 (amended): applying the purge-duplicates stage twice yields the same
result as applying it once, provided every surviving canonical string is a
fixed point of re-canonicalisation (lower of realpath of the stored path) —
which holds in particular when the canonical strings resolve to themselves.
Without that proviso a symlink whose case-folded resolved path resolves
further breaks idempotence (see the counterexample). -/
theorem C9_purge_duplicates_idempotent (fs : FS) (rows : List Row)
    (H : ∀ y ∈ unseen_before (rows.map (fun r => fs.lower (fs.realpath r.path))),
        fs.lower (fs.realpath (fs.mkPath y)) = y) :
    no_duplicates fs (no_duplicates fs rows) = no_duplicates fs rows := by
  have hmap : (make_rows fs (unseen_before (rows.map (fun r => fs.lower (fs.realpath r.path))))).map
        (fun r => fs.lower (fs.realpath r.path))
      = unseen_before (rows.map (fun r => fs.lower (fs.realpath r.path))) := by
    have h1 : (make_rows fs (unseen_before (rows.map (fun r => fs.lower (fs.realpath r.path))))).map
          (fun r => fs.lower (fs.realpath r.path))
        = ((make_rows fs (unseen_before (rows.map (fun r => fs.lower (fs.realpath r.path))))).map
            Row.path).map (fun p => fs.lower (fs.realpath p)) := by
      rw [List.map_map]
      rfl
    rw [h1, make_rows_map_path, List.map_map]
    have h2 : ∀ y ∈ unseen_before (rows.map (fun r => fs.lower (fs.realpath r.path))),
        ((fun p => fs.lower (fs.realpath p)) ∘ fs.mkPath) y = id y := by
      intro y hy
      exact H y hy
    rw [List.map_congr_left h2, List.map_id]
  show no_duplicates fs (make_rows fs (unseen_before (rows.map (fun r =>
      fs.lower (fs.realpath r.path))))) = _
  unfold no_duplicates
  rw [hmap, unseen_before_eq_self _ (unseen_before_nodup _)]

/-- C9 witness: a concrete instance of the amended idempotence theorem in the
identity environment. -/
theorem C9_witness :
    no_duplicates fsId (no_duplicates fsId [{ i := 0, path := "/a", count := 1 }])
      = no_duplicates fsId [{ i := 0, path := "/a", count := 1 }] :=
  C9_purge_duplicates_idempotent fsId [{ i := 0, path := "/a", count := 1 }] (by decide)

/-- C9 counterexample: in the realizable environment `fsSym` (`/A` a real
directory, `/a` a symlink to `/C` on a case-sensitive filesystem) one
application of purge-duplicates yields the row for `/a`, a second application
re-resolves it to `/c` — applying the stage twice differs from applying it
once. -/
theorem C9_counterexample :
    no_duplicates fsSym [{ i := 0, path := "/A", count := 1 }]
      = [{ i := 0, path := "/a", count := 1 }] ∧
    no_duplicates fsSym (no_duplicates fsSym [{ i := 0, path := "/A", count := 1 }])
      = [{ i := 0, path := "/c", count := 1 }] ∧
    ([{ i := 0, path := "/c", count := 1 }] : List Row)
      ≠ [{ i := 0, path := "/a", count := 1 }] := by
  decide

/-- C10: the duplicates-only, invalid-only, purge-invalid, includes-filter
and excludes-filter stages each return a sublist of their input: every output
element is one of the input rows, unchanged, and the relative order of
survivors is preserved. -/
theorem C10_filter_stages_sublist (fs : FS) (includes excludes : String)
    (rows : List Row) :
    (duplicates_stage rows).Sublist rows ∧
    (invalid_stage fs rows).Sublist rows ∧
    (purge_invalid_stage fs rows).Sublist rows ∧
    (includes_stage fs includes rows).Sublist rows ∧
    (excludes_stage fs excludes rows).Sublist rows :=
  ⟨List.filter_sublist rows, List.filter_sublist rows, List.filter_sublist rows,
   List.filter_sublist rows, List.filter_sublist rows⟩
